import Mathlib

/-
Verification of the forwarding core of an HTTP reverse proxy / API gateway
(weighted round-robin load balancing, backend health state, proxy header
rewriting, and the middleware chain), shallowly embedded from the Go sources
in internal/proxy and internal/middleware.
-/

set_option autoImplicit false

/-- A backend server, embedding the Backend struct of internal/proxy/backend.go.
The URL is kept as its configuration string; the mutex, the health-check HTTP
client and the lastCheck timestamp carry no selection-relevant state and are
omitted. Weight is a Go int (may be non-positive from config); FailCount starts
at 0 and is only incremented or reset, so Nat is an exact embedding. -/
structure Backend where
  url : String
  Weight : Int
  Healthy : Bool
  FailCount : Nat
deriving DecidableEq, Repr, Inhabited

/-- Healthy backends of a pool, in pool order
(BackendPool.GetHealthyBackends in internal/proxy/backend.go). -/
def GetHealthyBackends (pool : List Backend) : List Backend :=
  pool.filter (fun b => b.Healthy)

/-- The weight actually used by the balancer when expanding the virtual list:
NextBackend replaces a weight less than or equal to 0 by 1. -/
def effWeight (b : Backend) : Nat :=
  if b.Weight ≤ 0 then 1 else b.Weight.toNat

/-- The virtual list of RoundRobinBalancer.NextBackend: each backend repeated
weight-many times, in the order of the given list. -/
def weightedExpand : List Backend → List Backend
  | [] => []
  | b :: t => List.replicate (effWeight b) b ++ weightedExpand t

/-- RoundRobinBalancer of internal/proxy/loadbalancer.go: a pool reference plus
the integer cursor. The cursor starts at 0 and is only incremented or reset to
0, so Nat embeds the Go int exactly. The mutex is omitted (calls are modelled
as atomic, which is what the lock achieves). -/
structure RoundRobinBalancer where
  pool : List Backend
  current : Nat
deriving Repr

/-- RoundRobinBalancer.NextBackend: snapshot the healthy set; fail when empty;
otherwise build the weighted virtual list, return the entry at
current mod length, increment the cursor, and reset it to 0 once it reaches
length * 1000. Returns the selected backend (none models the Go error) plus
the successor balancer state. -/
def NextBackend (rr : RoundRobinBalancer) : Option Backend × RoundRobinBalancer :=
  let healthyBackends := GetHealthyBackends rr.pool
  if healthyBackends.isEmpty then (none, rr)
  else
    let weightedBackends := weightedExpand healthyBackends
    let backend := weightedBackends.getD (rr.current % weightedBackends.length) default
    let cur := rr.current + 1
    (some backend,
      { rr with current := if cur ≥ weightedBackends.length * 1000 then 0 else cur })

/-- Outputs of n consecutive NextBackend calls, threading the balancer state. -/
def runOutputs : RoundRobinBalancer → Nat → List (Option Backend)
  | _, 0 => []
  | rr, Nat.succ n =>
    let r := NextBackend rr
    r.1 :: runOutputs r.2 n

theorem effWeight_pos (b : Backend) : 0 < effWeight b := by
  unfold effWeight
  split
  · exact Nat.one_pos
  · omega

theorem length_weightedExpand (bs : List Backend) :
    (weightedExpand bs).length = (bs.map effWeight).sum := by
  induction bs with
  | nil => rfl
  | cons b t ih => simp [weightedExpand, ih]

theorem length_weightedExpand_pos (bs : List Backend) (h : bs ≠ []) :
    0 < (weightedExpand bs).length := by
  cases bs with
  | nil => exact absurd rfl h
  | cons b t =>
    have hb := effWeight_pos b
    simp [weightedExpand]
    omega

theorem mem_weightedExpand {a : Backend} {bs : List Backend} :
    a ∈ weightedExpand bs ↔ a ∈ bs := by
  induction bs with
  | nil => simp [weightedExpand]
  | cons b t ih =>
    have hb : effWeight b ≠ 0 := by
      have := effWeight_pos b
      omega
    simp [weightedExpand, List.mem_append, List.mem_replicate, ih, hb]

theorem NextBackend_step (pool : List Backend) (c : Nat)
    (hne : GetHealthyBackends pool ≠ []) :
    NextBackend ⟨pool, c⟩ =
      (some ((weightedExpand (GetHealthyBackends pool)).getD
          (c % (weightedExpand (GetHealthyBackends pool)).length) default),
        ⟨pool, if c + 1 ≥ (weightedExpand (GetHealthyBackends pool)).length * 1000
               then 0 else c + 1⟩) := by
  have h : (GetHealthyBackends pool).isEmpty = false := by
    simp [List.isEmpty_iff, hne]
  simp [NextBackend, h]

theorem cursor_reset_mod (L c : Nat) (hL : 0 < L) (hc : c < L * 1000) :
    ((if c + 1 ≥ L * 1000 then 0 else c + 1) % L = (c + 1) % L)
    ∧ (if c + 1 ≥ L * 1000 then 0 else c + 1) < L * 1000 := by
  constructor
  · split
    · rename_i h
      have he : c + 1 = L * 1000 := by omega
      rw [he, Nat.mul_mod_right, Nat.zero_mod]
    · rfl
  · split
    · rename_i h
      omega
    · rename_i h
      omega

theorem runOutputs_succ (rr : RoundRobinBalancer) (n : Nat) :
    runOutputs rr (n + 1) = (NextBackend rr).1 :: runOutputs (NextBackend rr).2 n := rfl

theorem runOutputs_formula (n : Nat) : ∀ (pool : List Backend) (c : Nat),
    GetHealthyBackends pool ≠ [] →
    c < (weightedExpand (GetHealthyBackends pool)).length * 1000 →
    runOutputs ⟨pool, c⟩ n = (List.range n).map
      (fun k => some ((weightedExpand (GetHealthyBackends pool)).getD
        ((c + k) % (weightedExpand (GetHealthyBackends pool)).length) default)) := by
  induction n with
  | zero => intro pool c _ _; simp [runOutputs]
  | succ n ih =>
    intro pool c hne hc
    have hL : 0 < (weightedExpand (GetHealthyBackends pool)).length :=
      length_weightedExpand_pos _ hne
    have hstep := NextBackend_step pool c hne
    have hmod := cursor_reset_mod (weightedExpand (GetHealthyBackends pool)).length c hL hc
    rw [runOutputs_succ, hstep]
    rw [ih pool _ hne hmod.2]
    rw [List.range_succ_eq_map, List.map_cons, List.map_map]
    congr 1
    apply List.map_congr_left
    intro k _
    have harg : ((if c + 1 ≥ (weightedExpand (GetHealthyBackends pool)).length * 1000
          then 0 else c + 1) + k) % (weightedExpand (GetHealthyBackends pool)).length
        = (c + Nat.succ k) % (weightedExpand (GetHealthyBackends pool)).length := by
      rw [Nat.add_mod _ k, hmod.1, ← Nat.add_mod]
      congr 1
      omega
    simp only [Function.comp]
    rw [harg]

theorem window_eq_rotate (l : List Backend) (hl : 0 < l.length) (c : Nat) :
    (List.range l.length).map (fun k => some (l.getD ((c + k) % l.length) default))
      = (l.rotate (c % l.length)).map some := by
  apply List.ext_getElem
  · simp [List.length_rotate]
  · intro i h1 h2
    have hi : i < l.length := by
      simpa using h1
    have hm : (c + i) % l.length < l.length := Nat.mod_lt _ hl
    have hidx : (i + c % l.length) % l.length = (c + i) % l.length := by
      rw [Nat.add_mod_mod, Nat.add_comm]
    rw [List.getElem_map, List.getElem_range, List.getElem_map, List.getElem_rotate]
    simp only [hidx, List.getD_eq_getElem l default hm]

theorem count_map_some (l : List Backend) (b : Backend) :
    (l.map some).count (some b) = l.count b := by
  induction l with
  | nil => rfl
  | cons a t ih => simp [List.count_cons, ih, beq_iff_eq]

theorem count_window (l : List Backend) (hl : 0 < l.length) (c : Nat) (b : Backend) :
    ((List.range l.length).map
        (fun k => some (l.getD ((c + k) % l.length) default))).count (some b)
      = l.count b := by
  rw [window_eq_rotate l hl c, count_map_some]
  exact (List.rotate_perm l (c % l.length)).count_eq b

theorem count_weightedExpand (b : Backend) (bs : List Backend)
    (hnd : bs.Nodup) (hb : b ∈ bs) :
    (weightedExpand bs).count b = effWeight b := by
  induction bs with
  | nil => cases hb
  | cons a t ih =>
    rw [weightedExpand, List.count_append]
    rcases List.mem_cons.mp hb with h | h
    · subst h
      have hnotin : b ∉ t := (List.nodup_cons.mp hnd).1
      have h0 : (weightedExpand t).count b = 0 :=
        List.count_eq_zero.mpr (fun hmem => hnotin (mem_weightedExpand.mp hmem))
      rw [h0, List.count_replicate_self]
      rfl
    · have hab : a ≠ b := by
        rintro rfl
        exact (List.nodup_cons.mp hnd).1 h
      have h1 : (List.replicate (effWeight a) a).count b = 0 := by
        rw [List.count_replicate]
        simp [hab]
      rw [h1, ih (List.nodup_cons.mp hnd).2 h, Nat.zero_add]

/-- C1: for a pool whose backends are all healthy (static) and pairwise
distinct (the embedding of Go pointer identity), any window of
Σ w_i = (weightedExpand pool).length consecutive NextBackend calls starting
from a reachable cursor returns each backend exactly weight-many times; each
call returns the entry at position cursor mod virtual-list length of the list
built by repeating each backend weight-many times in pool order, and advances
the cursor by exactly one, resetting it to 0 at virtualLen * 1000. -/
theorem weighted_round_robin_window (pool : List Backend) (c : Nat)
    (hall : ∀ b ∈ pool, b.Healthy = true)
    (hne : pool ≠ [])
    (hnd : pool.Nodup)
    (hc : c < (weightedExpand pool).length * 1000) :
    (∀ b ∈ pool,
      (runOutputs ⟨pool, c⟩ (weightedExpand pool).length).count (some b) = effWeight b)
    ∧ (NextBackend ⟨pool, c⟩).1 =
        some ((weightedExpand pool).getD (c % (weightedExpand pool).length) default)
    ∧ (NextBackend ⟨pool, c⟩).2.current =
        (if c + 1 ≥ (weightedExpand pool).length * 1000 then 0 else c + 1) := by
  have hfilter : GetHealthyBackends pool = pool := by
    unfold GetHealthyBackends
    exact List.filter_eq_self.mpr (fun b hb => by simp [hall b hb])
  have hne' : GetHealthyBackends pool ≠ [] := by
    rw [hfilter]
    exact hne
  have hL : 0 < (weightedExpand pool).length := length_weightedExpand_pos pool hne
  have hstep := NextBackend_step pool c hne'
  rw [hfilter] at hstep
  refine ⟨?_, ?_, ?_⟩
  · intro b hb
    have hrun := runOutputs_formula (weightedExpand pool).length pool c hne'
      (by rw [hfilter]; exact hc)
    rw [hfilter] at hrun
    rw [hrun, count_window _ hL, count_weightedExpand b pool hnd hb]
  · rw [hstep]
  · rw [hstep]

/-- Example pool entries used to instantiate the claim theorems. -/
def backendA : Backend := ⟨"http://a", 2, true, 0⟩

/-- Second example pool entry. -/
def backendB : Backend := ⟨"http://b", 1, true, 0⟩

/-- Witness for C1: pool [(A, 2), (B, 1)], cursor 0; a window of 3 calls
returns A exactly twice. -/
theorem weighted_round_robin_window_witness :
    (runOutputs ⟨[backendA, backendB], 0⟩ 3).count (some backendA) = 2 := by
  have h := weighted_round_robin_window [backendA, backendB] 0
    (by decide) (by decide) (by decide) (by decide)
  exact h.1 backendA (by decide)

/-- Outcome of one health probe of a backend, abstracting the HTTP call in
BackendPool.checkBackend: the request-construction error path, the transport
error path (including deadline expiry), or a response with a status code. -/
inductive ProbeOutcome where
  | buildError
  | transportError
  | response (code : Nat)
deriving DecidableEq, Repr

/-- Log lines emitted on the health-check path, by emission site. -/
inductive LogEvent where
  | markedUnhealthyLog
  | recoveredLog
  | healthFailedLog
deriving DecidableEq, Repr

/-- Backend.markHealthy: set Healthy, reset FailCount. -/
def markHealthy (b : Backend) : Backend :=
  { b with Healthy := true, FailCount := 0 }

/-- Backend.markUnhealthy: increment FailCount; once it reaches 3 clear the
Healthy flag, logging the "marked unhealthy" line when the backend was still
healthy at that moment. -/
def markUnhealthy (b : Backend) : Backend × List LogEvent :=
  let b1 := { b with FailCount := b.FailCount + 1 }
  if b1.FailCount ≥ 3 then
    ({ b1 with Healthy := false },
      if b.Healthy then [LogEvent.markedUnhealthyLog] else [])
  else (b1, [])

/-- BackendPool.checkBackend as a function of the probe outcome: a request
build error or transport error counts as one failure; a 200 response calls
markHealthy and then logs "recovered" only if the FailCount field read AFTER
markHealthy is positive (the order the Go code reads it in); any other status
counts as one failure. The lastCheck timestamp is omitted. -/
def checkBackend (outcome : ProbeOutcome) (b : Backend) : Backend × List LogEvent :=
  match outcome with
  | ProbeOutcome.buildError => markUnhealthy b
  | ProbeOutcome.transportError =>
    let r := markUnhealthy b
    (r.1, r.2 ++ [LogEvent.healthFailedLog])
  | ProbeOutcome.response code =>
    if code = 200 then
      let b1 := markHealthy b
      (b1, if b1.FailCount > 0 then [LogEvent.recoveredLog] else [])
    else
      let r := markUnhealthy b
      (r.1, r.2 ++ [LogEvent.healthFailedLog])

theorem NextBackend_mem_healthy (pool : List Backend) (c : Nat) (b : Backend)
    (h : (NextBackend ⟨pool, c⟩).1 = some b) : b ∈ GetHealthyBackends pool := by
  by_cases he : GetHealthyBackends pool = []
  · have hemp : (GetHealthyBackends pool).isEmpty = true := by
      simp [List.isEmpty_iff, he]
    simp [NextBackend, hemp] at h
  · have hL : 0 < (weightedExpand (GetHealthyBackends pool)).length :=
      length_weightedExpand_pos _ he
    rw [NextBackend_step pool c he] at h
    have hb : (weightedExpand (GetHealthyBackends pool)).getD
        (c % (weightedExpand (GetHealthyBackends pool)).length) default = b :=
      Option.some_injective _ h
    have hlt : c % (weightedExpand (GetHealthyBackends pool)).length
        < (weightedExpand (GetHealthyBackends pool)).length := Nat.mod_lt _ hL
    rw [List.getD_eq_getElem _ default hlt] at hb
    exact mem_weightedExpand.mp (hb ▸ List.getElem_mem hlt)

theorem markUnhealthy_stays_unhealthy (b : Backend) (h : b.Healthy = false) :
    ((markUnhealthy b).1).Healthy = false := by
  unfold markUnhealthy
  by_cases h3 : b.FailCount + 1 ≥ 3
  · simp [h3]
  · simp [h3, h]

/-- C2: NextBackend never returns a backend whose healthy flag is false; a
probe outcome other than status 200 leaves an unhealthy backend unhealthy, and
a probe returning status 200 flips it back to healthy. -/
theorem unhealthy_backend_never_selected (pool : List Backend) (c : Nat)
    (b : Backend) (o : ProbeOutcome) :
    ((NextBackend ⟨pool, c⟩).1 = some b → b.Healthy = true)
    ∧ (b.Healthy = false → o ≠ ProbeOutcome.response 200 →
        ((checkBackend o b).1).Healthy = false)
    ∧ ((checkBackend (ProbeOutcome.response 200) b).1).Healthy = true := by
  refine ⟨?_, ?_, ?_⟩
  · intro h
    have hmem := NextBackend_mem_healthy pool c b h
    unfold GetHealthyBackends at hmem
    simpa using (List.mem_filter.mp hmem).2
  · intro hunh hno
    cases o with
    | buildError => exact markUnhealthy_stays_unhealthy b hunh
    | transportError => exact markUnhealthy_stays_unhealthy b hunh
    | response code =>
      have hcode : code ≠ 200 := by
        intro hc
        exact hno (by rw [hc])
      simpa [checkBackend, hcode] using markUnhealthy_stays_unhealthy b hunh
  · simp [checkBackend, markHealthy]

/-- Witness for C2: a healthy backend is returned by NextBackend; an unhealthy
backend stays unhealthy under a failed probe and recovers on a 200 probe. -/
theorem unhealthy_backend_never_selected_witness :
    backendA.Healthy = true
    ∧ ((checkBackend ProbeOutcome.transportError ⟨"http://c", 1, false, 3⟩).1).Healthy = false
    ∧ ((checkBackend (ProbeOutcome.response 200) ⟨"http://c", 1, false, 3⟩).1).Healthy = true := by
  have h1 := unhealthy_backend_never_selected [backendA] 0 backendA
    ProbeOutcome.transportError
  have h2 := unhealthy_backend_never_selected [backendA] 0 ⟨"http://c", 1, false, 3⟩
    ProbeOutcome.transportError
  exact ⟨h1.1 (by decide), h2.2.1 (by decide) (by decide), h2.2.2⟩

/-- One step of health-state mutation: the only two mutators of a Backend. -/
inductive MarkEvent where
  | mh
  | mu
deriving DecidableEq, Repr

/-- Apply one markHealthy / markUnhealthy step to a backend. -/
def applyMark (b : Backend) (e : MarkEvent) : Backend :=
  match e with
  | MarkEvent.mh => markHealthy b
  | MarkEvent.mu => (markUnhealthy b).1

/-- State reached after a sequence of mark steps. -/
def runMarks (b : Backend) (evs : List MarkEvent) : Backend :=
  evs.foldl applyMark b

/-- NewBackend of internal/proxy/backend.go on the success path of URL parsing:
the backend starts healthy with FailCount 0 and keeps the configured weight
unnormalized. -/
def NewBackend (urlStr : String) (weight : Int) : Backend :=
  ⟨urlStr, weight, true, 0⟩

/-- C3: along every markHealthy/markUnhealthy sequence from a freshly created
backend, the healthy flag drops from true to false only in a step whose
resulting FailCount has reached at least 3, and every markHealthy step sets
Healthy = true and resets FailCount to 0; a fresh backend starts healthy with
FailCount 0. -/
theorem mark_transition_invariants (urlStr : String) (w : Int)
    (evs : List MarkEvent) (e : MarkEvent) :
    ((runMarks (NewBackend urlStr w) evs).Healthy = true →
      (applyMark (runMarks (NewBackend urlStr w) evs) e).Healthy = false →
      3 ≤ (applyMark (runMarks (NewBackend urlStr w) evs) e).FailCount)
    ∧ applyMark (runMarks (NewBackend urlStr w) evs) MarkEvent.mh
        = { runMarks (NewBackend urlStr w) evs with Healthy := true, FailCount := 0 }
    ∧ (NewBackend urlStr w).Healthy = true
    ∧ (NewBackend urlStr w).FailCount = 0 := by
  set s := runMarks (NewBackend urlStr w) evs with hs
  refine ⟨?_, rfl, rfl, rfl⟩
  intro h1 h2
  cases e with
  | mh => simp [applyMark, markHealthy] at h2
  | mu =>
    by_cases h3 : s.FailCount + 1 ≥ 3
    · simp [applyMark, markUnhealthy, h3]
    · simp [applyMark, markUnhealthy, h3, h1] at h2

/-- Witness for C3: from a fresh backend, after two markUnhealthy steps a
third one demotes the backend and its FailCount is at least 3. -/
theorem mark_transition_invariants_witness :
    3 ≤ (applyMark (runMarks (NewBackend "http://a" 1)
        [MarkEvent.mu, MarkEvent.mu]) MarkEvent.mu).FailCount := by
  have h := mark_transition_invariants "http://a" 1
    [MarkEvent.mu, MarkEvent.mu] MarkEvent.mu
  exact h.1 (by decide) (by decide)

/-- C9 (code bug): a 200 probe on a previously unhealthy backend flips it
healthy but emits NO "recovered" log line — markHealthy resets FailCount to 0
before checkBackend tests FailCount greater than 0, so the recovered branch is
dead code for every backend state; demotion of a still-healthy backend does
emit exactly one "marked unhealthy" line. -/
theorem recovered_line_never_logged :
    (∀ b : Backend, (checkBackend (ProbeOutcome.response 200) b).2 = [])
    ∧ ((checkBackend (ProbeOutcome.response 200) ⟨"http://a", 1, false, 3⟩).1).Healthy = true
    ∧ (checkBackend ProbeOutcome.transportError ⟨"http://b", 1, true, 2⟩).2
        = [LogEvent.markedUnhealthyLog, LogEvent.healthFailedLog] := by
  refine ⟨?_, by decide, by decide⟩
  intro b
  simp [checkBackend, markHealthy]

/-- HTTP headers as an association list from canonical-MIME-form keys to value
lists, modelling Go's http.Header map (Go canonicalizes keys on the wire and
in Header.Add/Set, so the TE header's key is "Te"). -/
abbrev Header := List (String × List String)

/-- Lookup of a header key, modelling Go map indexing. -/
def headerLookup : Header → String → Option (List String)
  | [], _ => none
  | kv :: t, k => if kv.1 = k then some kv.2 else headerLookup t k

/-- Header.Get of Go's net/http: the first value of the key, or "". -/
def headerGet (h : Header) (k : String) : String :=
  match headerLookup h k with
  | some (v :: _) => v
  | some [] => ""
  | none => ""

/-- Header.Set of Go's net/http: replace the key's values by the single value. -/
def headerSet : Header → String → String → Header
  | [], k, v => [(k, [v])]
  | kv :: t, k, v => if kv.1 = k then (k, [v]) :: t else kv :: headerSet t k v

/-- The hop-by-hop header keys of isHopByHopHeader in internal/proxy/proxy.go,
in Go canonical form. -/
def hopByHopNames : List String :=
  ["Connection", "Keep-Alive", "Proxy-Authenticate", "Proxy-Authorization",
    "Te", "Trailers", "Transfer-Encoding", "Upgrade"]

/-- Membership in the hop-by-hop map of internal/proxy/proxy.go. -/
def isHopByHopHeader (s : String) : Bool :=
  hopByHopNames.contains s

/-- Headers of the outbound request built by ProxyHandler.createProxyRequest:
every inbound header is copied with all its values except the hop-by-hop ones
(http.NewRequest starts from an empty header map, and a key whose value list
is empty is never materialized because Add is called once per value). -/
def createProxyRequestHeaders : Header → Header
  | [] => []
  | kv :: t =>
    if isHopByHopHeader kv.1 then createProxyRequestHeaders t
    else if kv.2.isEmpty then createProxyRequestHeaders t
    else kv :: createProxyRequestHeaders t

theorem cprh_lookup_hop (h : Header) (name : String)
    (hname : isHopByHopHeader name = true) :
    headerLookup (createProxyRequestHeaders h) name = none := by
  induction h with
  | nil => rfl
  | cons kv t ih =>
    by_cases h1 : isHopByHopHeader kv.1
    · simp [createProxyRequestHeaders, h1, ih]
    · by_cases h2 : kv.2.isEmpty
      · simp [createProxyRequestHeaders, h1, h2, ih]
      · have hne : kv.1 ≠ name := by
          intro he
          exact h1 (he ▸ hname)
        simp [createProxyRequestHeaders, h1, h2, headerLookup, hne, ih]

theorem cprh_lookup_keep (h : Header) (k : String) (vs : List String)
    (hk : isHopByHopHeader k = false) (hvs : vs ≠ [])
    (hl : headerLookup h k = some vs) :
    headerLookup (createProxyRequestHeaders h) k = some vs := by
  induction h with
  | nil => cases hl
  | cons kv t ih =>
    by_cases hkk : kv.1 = k
    · have hv : kv.2 = vs := by
        have := hl
        simp [headerLookup, hkk] at this
        exact this
      have h1 : isHopByHopHeader kv.1 = false := by
        rw [hkk]
        exact hk
      have h2 : kv.2.isEmpty = false := by
        rw [hv]
        cases vs with
        | nil => exact absurd rfl hvs
        | cons a l => rfl
      simp [createProxyRequestHeaders, h1, h2, headerLookup, hkk, hv, hk, hvs]
    · have hl' : headerLookup t k = some vs := by
        have := hl
        simp [headerLookup, hkk] at this
        exact this
      by_cases h1 : isHopByHopHeader kv.1
      · simp [createProxyRequestHeaders, h1, ih hl']
      · by_cases h2 : kv.2.isEmpty
        · simp [createProxyRequestHeaders, h1, h2, ih hl']
        · simp [createProxyRequestHeaders, h1, h2, headerLookup, hkk, ih hl']

/-- C4: the outbound request built by createProxyRequest carries none of the
hop-by-hop headers Connection, Keep-Alive, Proxy-Authenticate,
Proxy-Authorization, Te (canonical key of TE), Trailers, Transfer-Encoding,
Upgrade, regardless of the inbound header map, and every other inbound header
is copied with all its values. -/
theorem hop_by_hop_stripped (h : Header) :
    (∀ name ∈ hopByHopNames, headerLookup (createProxyRequestHeaders h) name = none)
    ∧ (∀ k vs, isHopByHopHeader k = false → vs ≠ [] →
        headerLookup h k = some vs →
        headerLookup (createProxyRequestHeaders h) k = some vs) := by
  constructor
  · intro name hname
    apply cprh_lookup_hop
    simpa [isHopByHopHeader, List.elem_iff] using hname
  · intro k vs hk hvs hl
    exact cprh_lookup_keep h k vs hk hvs hl

/-- Witness for C4: an inbound with Connection and a two-valued Accept header
yields an outbound without Connection and with Accept intact. -/
theorem hop_by_hop_stripped_witness :
    headerLookup (createProxyRequestHeaders
        [("Connection", ["keep-alive"]), ("Accept", ["text/html", "application/json"])])
        "Connection" = none
    ∧ headerLookup (createProxyRequestHeaders
        [("Connection", ["keep-alive"]), ("Accept", ["text/html", "application/json"])])
        "Accept" = some ["text/html", "application/json"] := by
  have h := hop_by_hop_stripped
    [("Connection", ["keep-alive"]), ("Accept", ["text/html", "application/json"])]
  exact ⟨h.1 "Connection" (by decide),
    h.2 "Accept" ["text/html", "application/json"] (by decide) (by decide) (by decide)⟩

theorem headerLookup_headerSet_self (h : Header) (k v : String) :
    headerLookup (headerSet h k v) k = some [v] := by
  induction h with
  | nil => simp [headerSet, headerLookup]
  | cons kv t ih =>
    by_cases h1 : kv.1 = k
    · simp [headerSet, h1, headerLookup]
    · simp [headerSet, h1, headerLookup, ih]

theorem headerLookup_headerSet_other (h : Header) (kset k v : String)
    (hne : kset ≠ k) :
    headerLookup (headerSet h kset v) k = headerLookup h k := by
  induction h with
  | nil => simp [headerSet, headerLookup, hne]
  | cons kv t ih =>
    by_cases h1 : kv.1 = kset
    · have h2 : kv.1 ≠ k := by
        rw [h1]
        exact hne
      simp [headerSet, h1, headerLookup, hne, h2]
    · by_cases h2 : kv.1 = k
      · have h3 : ¬ k = kset := fun he => hne he.symm
        simp [headerSet, h1, h3, headerLookup, h2]
      · simp [headerSet, h1, headerLookup, h2, ih]

theorem cprh_lookup_none (h : Header) (k : String)
    (hl : headerLookup h k = none) :
    headerLookup (createProxyRequestHeaders h) k = none := by
  induction h with
  | nil => rfl
  | cons kv t ih =>
    by_cases hkk : kv.1 = k
    · simp [headerLookup, hkk] at hl
    · have hl' : headerLookup t k = none := by
        have := hl
        simp [headerLookup, hkk] at this
        exact this
      by_cases h1 : isHopByHopHeader kv.1
      · simp [createProxyRequestHeaders, h1, ih hl']
      · by_cases h2 : kv.2.isEmpty
        · simp [createProxyRequestHeaders, h1, h2, ih hl']
        · simp [createProxyRequestHeaders, h1, h2, headerLookup, hkk, ih hl']

/-- An inbound HTTP request, reduced to the fields the proxy hop reads:
header map, peer address (RemoteAddr), Host, and whether TLS metadata is
present. -/
structure Request where
  headers : Header
  remoteAddr : String
  host : String
  tls : Bool

/-- Split of a character list at every occurrence of a separator, keeping
empty segments; the recursive core of Go's strings.Split for a one-character
separator. -/
def splitCharList (sep : Char) : List Char → List (List Char)
  | [] => [[]]
  | c :: t =>
    let r := splitCharList sep t
    if c = sep then [] :: r
    else (c :: r.headD []) :: r.tail

/-- Go's strings.Split for a one-character separator. -/
def goSplit (s : String) (sep : Char) : List String :=
  (splitCharList sep s.data).map (fun l => String.mk l)

/-- Go's strings.TrimSpace: strip leading and trailing whitespace. -/
def goTrimSpace (s : String) : String :=
  String.mk (((s.data.dropWhile Char.isWhitespace).reverse.dropWhile
    Char.isWhitespace).reverse)

/-- Host part of Go's net.SplitHostPort, modelled for unbracketed addresses:
exactly one colon splits host from port, anything else is the error path. -/
def splitHostPortHost (s : String) : Option String :=
  let parts := goSplit s ':'
  if parts.length = 2 then some (parts.headD "") else none

/-- The getClientIP function of internal/proxy/proxy.go: first element of the
incoming X-Forwarded-For (trimmed) when the header value is non-empty, else
X-Real-IP when non-empty, else the peer address without its port (falling back
to the raw RemoteAddr when SplitHostPort fails). -/
def getClientIP (req : Request) : String :=
  let xff := headerGet req.headers "X-Forwarded-For"
  if xff ≠ "" then
    goTrimSpace ((goSplit xff ',').headD "")
  else
    let xri := headerGet req.headers "X-Real-IP"
    if xri ≠ "" then xri
    else
      match splitHostPortHost req.remoteAddr with
      | some host => host
      | none => req.remoteAddr

/-- The setForwardingHeaders function of internal/proxy/proxy.go, acting on
the outbound header map: append the client IP to any X-Forwarded-For already
copied onto the outbound request (or set it), then overwrite X-Real-IP,
X-Forwarded-Proto and X-Forwarded-Host. -/
def setForwardingHeaders (proxyH : Header) (orig : Request) : Header :=
  let clientIP := getClientIP orig
  let xff :=
    match headerLookup proxyH "X-Forwarded-For" with
    | some prior => String.intercalate ", " prior ++ ", " ++ clientIP
    | none => clientIP
  headerSet (headerSet (headerSet (headerSet proxyH "X-Forwarded-For" xff)
    "X-Real-IP" (getClientIP orig))
    "X-Forwarded-Proto" (if orig.tls then "https" else "http"))
    "X-Forwarded-Host" orig.host

/-- The complete outbound header pipeline of ProxyHandler.Handle:
createProxyRequest header copy, then setForwardingHeaders. -/
def outboundHeaders (req : Request) : Header :=
  setForwardingHeaders (createProxyRequestHeaders req.headers) req

theorem headerGet_outbound_xff (req : Request) :
    headerGet (outboundHeaders req) "X-Forwarded-For" =
      (match headerLookup (createProxyRequestHeaders req.headers) "X-Forwarded-For" with
        | some prior => String.intercalate ", " prior ++ ", " ++ getClientIP req
        | none => getClientIP req) := by
  have hXFH : "X-Forwarded-Host" ≠ "X-Forwarded-For" := by decide
  have hXFP : "X-Forwarded-Proto" ≠ "X-Forwarded-For" := by decide
  have hXRI : "X-Real-IP" ≠ "X-Forwarded-For" := by decide
  unfold outboundHeaders setForwardingHeaders headerGet
  rw [headerLookup_headerSet_other _ _ _ _ hXFH,
    headerLookup_headerSet_other _ _ _ _ hXFP,
    headerLookup_headerSet_other _ _ _ _ hXRI,
    headerLookup_headerSet_self]

/-- C5: the outbound X-Forwarded-For equals the client IP when the inbound
carried no X-Forwarded-For, and the inbound value list (comma-joined) with
", clientIP" appended when it did; the client IP is the trimmed first element
of the inbound X-Forwarded-For when that header is non-empty, else X-Real-IP
when non-empty, else the peer address without its port. -/
theorem forwarded_for_appended (req : Request) :
    (headerLookup req.headers "X-Forwarded-For" = none →
      headerGet (outboundHeaders req) "X-Forwarded-For" = getClientIP req)
    ∧ (∀ vs, vs ≠ [] → headerLookup req.headers "X-Forwarded-For" = some vs →
        headerGet (outboundHeaders req) "X-Forwarded-For"
          = String.intercalate ", " vs ++ ", " ++ getClientIP req)
    ∧ (headerGet req.headers "X-Forwarded-For" ≠ "" →
        getClientIP req
          = goTrimSpace ((goSplit (headerGet req.headers "X-Forwarded-For")
              ',').headD ""))
    ∧ (headerGet req.headers "X-Forwarded-For" = "" →
        headerGet req.headers "X-Real-IP" ≠ "" →
        getClientIP req = headerGet req.headers "X-Real-IP")
    ∧ (headerGet req.headers "X-Forwarded-For" = "" →
        headerGet req.headers "X-Real-IP" = "" →
        getClientIP req = (splitHostPortHost req.remoteAddr).getD req.remoteAddr) := by
  refine ⟨?_, ?_, ?_, ?_, ?_⟩
  · intro hnone
    rw [headerGet_outbound_xff, cprh_lookup_none req.headers _ hnone]
  · intro vs hvs hsome
    have hkeep := cprh_lookup_keep req.headers "X-Forwarded-For" vs (by rfl) hvs hsome
    rw [headerGet_outbound_xff, hkeep]
  · intro hx
    simp [getClientIP, hx]
  · intro hx hxr
    simp [getClientIP, hx, hxr]
  · intro hx hxr
    simp [getClientIP, hx, hxr]
    cases h : splitHostPortHost req.remoteAddr with
    | none => simp
    | some host => simp

/-- Witness for C5: a first gateway with no inbound X-Forwarded-For stamps the
peer address; a second gateway receiving that header produces a two-element
list. -/
theorem forwarded_for_appended_witness :
    headerGet (outboundHeaders ⟨[], "198.51.100.9:4711", "example.com", false⟩)
      "X-Forwarded-For" = "198.51.100.9"
    ∧ headerGet (outboundHeaders ⟨[("X-Forwarded-For", ["198.51.100.9"])],
        "10.0.0.1:8080", "example.com", false⟩) "X-Forwarded-For"
      = "198.51.100.9, 198.51.100.9" := by
  have h1 := forwarded_for_appended ⟨[], "198.51.100.9:4711", "example.com", false⟩
  have h2 := forwarded_for_appended ⟨[("X-Forwarded-For", ["198.51.100.9"])],
    "10.0.0.1:8080", "example.com", false⟩
  constructor
  · rw [h1.1 rfl]
    decide
  · rw [h2.2.1 ["198.51.100.9"] (by decide) (by decide)]
    decide

/-- Result of the outbound HTTP call in ProxyHandler.Handle: a transport
error, or an upstream response with status, headers and body. -/
inductive UpstreamResult where
  | transportError
  | response (status : Nat) (headers : Header) (body : String)

/-- What ProxyHandler.Handle writes back to the client, plus whether an
outbound request was issued and which backend was chosen. -/
structure HandleOutcome where
  status : Nat
  body : String
  outboundIssued : Bool
  backendSelected : Option Backend

/-- JSON body written with the 503 when no backend is available. -/
def noBackendBody : String := "\x7b\"error\":\"No backend servers available\"\x7d"

/-- JSON body written with the 502 on an upstream transport error. -/
def backendFailedBody : String := "\x7b\"error\":\"Backend request failed\"\x7d"

/-- ProxyHandler.Handle of internal/proxy/proxy.go: select a backend (503 and
no outbound call when none is healthy), issue the outbound request (502 on a
transport error), else stream the upstream status and body. The
createProxyRequest error branch (500) is unreachable for the parsed URLs the
model carries and is not represented; header rewriting is modelled separately
by outboundHeaders. -/
def Handle (rr : RoundRobinBalancer) (req : Request) (up : UpstreamResult) :
    HandleOutcome × RoundRobinBalancer :=
  match NextBackend rr with
  | (none, rr2) => (⟨503, noBackendBody, false, none⟩, rr2)
  | (some b, rr2) =>
    match up with
    | UpstreamResult.transportError => (⟨502, backendFailedBody, true, some b⟩, rr2)
    | UpstreamResult.response st _ body => (⟨st, body, true, some b⟩, rr2)

/-- C6: NextBackend fails exactly when the pool has zero healthy backends at
the moment of the call, and in that case the handler answers 503 with the
no-backend JSON body without issuing any outbound request. -/
theorem no_healthy_backend_503 (rr : RoundRobinBalancer) (req : Request)
    (up : UpstreamResult) :
    ((NextBackend rr).1 = none ↔ GetHealthyBackends rr.pool = [])
    ∧ (GetHealthyBackends rr.pool = [] →
        (Handle rr req up).1.status = 503
        ∧ (Handle rr req up).1.body = noBackendBody
        ∧ (Handle rr req up).1.outboundIssued = false) := by
  obtain ⟨pool, c⟩ := rr
  by_cases he : GetHealthyBackends pool = []
  · have hemp : (GetHealthyBackends pool).isEmpty = true := by
      simp [List.isEmpty_iff, he]
    have hnb : NextBackend ⟨pool, c⟩ = (none, ⟨pool, c⟩) := by
      simp [NextBackend, hemp]
    refine ⟨⟨fun _ => he, fun _ => by rw [hnb]⟩, fun _ => ?_⟩
    simp [Handle, hnb]
  · have hstep := NextBackend_step pool c he
    refine ⟨⟨fun hn => ?_, fun hcon => absurd hcon he⟩, fun hcon => absurd hcon he⟩
    rw [hstep] at hn
    simp at hn

/-- Example unhealthy backend used by the C6 witness. -/
def backendDown : Backend := ⟨"http://down", 1, false, 3⟩

/-- Witness for C6: a pool whose only backend is unhealthy yields the 503
outcome with no outbound request. -/
theorem no_healthy_backend_503_witness :
    (Handle ⟨[backendDown], 0⟩ ⟨[], "1.2.3.4:5", "h", false⟩
        UpstreamResult.transportError).1.status = 503
    ∧ (Handle ⟨[backendDown], 0⟩ ⟨[], "1.2.3.4:5", "h", false⟩
        UpstreamResult.transportError).1.outboundIssued = false := by
  have h := no_healthy_backend_503 ⟨[backendDown], 0⟩ ⟨[], "1.2.3.4:5", "h", false⟩
    UpstreamResult.transportError
  exact ⟨(h.2 (by decide)).1, (h.2 (by decide)).2.2⟩

/-- RateLimiter of internal/middleware/ratelimit.go: the configured rate and
burst handed to rate.NewLimiter (the bucket's clock-driven token state is
abstracted; see RateLimitMiddleware). -/
structure RateLimiter where
  requestsPerSecond : Int
  burst : Int

/-- NewRateLimiter stores the configured rate and burst. -/
def NewRateLimiter (requestsPerSecond : Int) (burst : Int) : RateLimiter :=
  ⟨requestsPerSecond, burst⟩

/-- Observable outcome of one middleware invocation: status and body written
by the middleware itself (none when it writes nothing), response headers it
set, and whether it invoked the downstream chain. -/
structure MWOutcome where
  status : Option Nat
  headers : Header
  body : Option String
  downstreamCalled : Bool

/-- JSON body of the 429 response. -/
def rateLimitBody : String := "\x7b\"error\":\"Rate limit exceeded\"\x7d"

/-- RateLimitMiddleware of internal/middleware/ratelimit.go, as a function of
whether a limiter is installed and of the result of limiter.Allow() (the
token-bucket state and clock are abstracted into the allowed flag): a nil
limiter or a granted token continues downstream; otherwise the middleware
writes the constant rate-limit headers, the 429 JSON body, and aborts. -/
def RateLimitMiddleware (limiter : Option RateLimiter) (allowed : Bool) : MWOutcome :=
  match limiter with
  | none => ⟨none, [], none, true⟩
  | some _ =>
    if allowed then ⟨none, [], none, true⟩
    else
      ⟨some 429,
        [("X-RateLimit-Limit", ["100"]), ("X-RateLimit-Remaining", ["0"])],
        some rateLimitBody, false⟩

/-- C7: a request that cannot take a token from an installed global rate
limiter is answered 429 with headers X-RateLimit-Limit and
X-RateLimit-Remaining: 0 and the rate-limit JSON body, and the downstream
handler is never invoked for it. -/
theorem rate_limited_429 (l : RateLimiter) :
    (RateLimitMiddleware (some l) false).status = some 429
    ∧ headerLookup (RateLimitMiddleware (some l) false).headers
        "X-RateLimit-Limit" = some ["100"]
    ∧ headerLookup (RateLimitMiddleware (some l) false).headers
        "X-RateLimit-Remaining" = some ["0"]
    ∧ (RateLimitMiddleware (some l) false).body = some rateLimitBody
    ∧ (RateLimitMiddleware (some l) false).downstreamCalled = false := by
  refine ⟨rfl, rfl, rfl, rfl, rfl⟩

/-- C10: the X-RateLimit-Limit header of a rate-limited response carries the
constant string "100" regardless of the requestsPerSecond and burst values
passed to NewRateLimiter. -/
theorem rate_limit_header_constant (requestsPerSecond burst : Int) :
    headerLookup (RateLimitMiddleware
        (some (NewRateLimiter requestsPerSecond burst)) false).headers
      "X-RateLimit-Limit" = some ["100"] := rfl

/-- CORSConfig of internal/middleware/cors.go. -/
structure CORSConfig where
  AllowedOrigins : List String
  AllowedMethods : List String
  AllowedHeaders : List String

/-- The isOriginAllowed helper of internal/middleware/cors.go. -/
def isOriginAllowed (origin : String) (allowedOrigins : List String) : Bool :=
  allowedOrigins.any (fun a => a = "*" || a = origin)

/-- CORSMiddleware of internal/middleware/cors.go for one request with the
given method and Origin header: apply config defaults, compute the
Access-Control headers, and terminate an OPTIONS request with 204 before
calling downstream. -/
def CORSMiddleware (config : CORSConfig) (method : String) (origin : String) :
    MWOutcome :=
  let allowedMethods := if config.AllowedMethods.isEmpty
    then ["GET", "POST", "PUT", "DELETE", "OPTIONS"] else config.AllowedMethods
  let allowedHeaders := if config.AllowedHeaders.isEmpty
    then ["Origin", "Content-Type", "Accept", "Authorization"]
    else config.AllowedHeaders
  let allowedOrigins := if config.AllowedOrigins.isEmpty
    then ["*"] else config.AllowedOrigins
  let allowOrigin :=
    if allowedOrigins.headD "" ≠ "*" then
      if isOriginAllowed origin allowedOrigins then origin
      else allowedOrigins.headD ""
    else "*"
  let hdrs := [("Access-Control-Allow-Origin", [allowOrigin]),
    ("Access-Control-Allow-Methods", [String.intercalate ", " allowedMethods]),
    ("Access-Control-Allow-Headers", [String.intercalate ", " allowedHeaders]),
    ("Access-Control-Max-Age", ["86400"])]
  if method = "OPTIONS" then ⟨some 204, hdrs, none, false⟩
  else ⟨none, hdrs, none, true⟩

/-- C8: with CORS enabled, every OPTIONS request is answered 204 and the
downstream handler is never invoked, so no upstream request is issued for a
preflight. -/
theorem cors_preflight_terminates (config : CORSConfig) (origin : String) :
    (CORSMiddleware config "OPTIONS" origin).status = some 204
    ∧ (CORSMiddleware config "OPTIONS" origin).downstreamCalled = false := by
  constructor <;> rfl
